import Mathlib

/-!
Shallow embedding of the kubeconfig manipulation tool (Rust sources
`src/kubeconfig.rs` and `src/main.rs`) and proofs about its validate,
merge, rename and delete operations.

Conventions of the embedding:
* Rust `Vec<T>` becomes `List T`, `Option<T>` becomes `Option T`,
  `HashMap<K, V>` becomes an association list `List (K × V)` (iteration
  order is irrelevant to every operation modelled here).
* `serde_yaml::Value` (the opaque extension payload, never interpreted by
  the program) is modelled by the inductive `YamlValue`.
* Functions that abort the process with `panic!` are modelled as
  `Except`-valued functions returning an error value.
* String operations that do not reduce in the Lean kernel
  (`String.startsWith`, `String.splitOn`) are re-implemented on the
  underlying character lists so that concrete instances evaluate.
-/

namespace Kubeconf

/-- Model of `serde_yaml::Value`: an opaque structured payload.  The
program never inspects these values; they only travel along. -/
inductive YamlValue where
  | null : YamlValue
  | boolV : Bool → YamlValue
  | intV : Int → YamlValue
  | strV : String → YamlValue
  | seqV : List YamlValue → YamlValue
  | mapV : List (String × YamlValue) → YamlValue

/-- `NamedExtension` from `kubeconfig.rs`: a `(name, opaque value)` pair. -/
structure NamedExtension where
  name : String
  extension : YamlValue := YamlValue.null

/-- `Preferences` from `kubeconfig.rs`. -/
structure Preferences where
  colors : Option Bool := none
  extensions : List NamedExtension := []

/-- `Cluster` from `kubeconfig.rs`. -/
structure Cluster where
  server : String
  tls_server_name : Option String := none
  insecure_skip_tls_verify : Option Bool := none
  certificate_authority : Option String := none
  certificate_authority_data : Option String := none
  proxy_url : Option String := none
  disable_compression : Option Bool := none
  extensions : List NamedExtension := []

/-- `NamedCluster` from `kubeconfig.rs`. -/
structure NamedCluster where
  name : String
  cluster : Cluster

/-- `AuthProvider` from `kubeconfig.rs` (config modelled as an
association list). -/
structure AuthProvider where
  name : String
  config : List (String × String) := []

/-- `InteractiveMode` from `kubeconfig.rs`. -/
inductive InteractiveMode where
  | Never | IfAvailable | Always

/-- `ExecEnvVar` from `kubeconfig.rs`. -/
structure ExecEnvVar where
  name : String
  value : String

/-- `ExecConfig` from `kubeconfig.rs`. -/
structure ExecConfig where
  command : String
  args : Option (List String) := none
  env : Option (List ExecEnvVar) := none
  api_version : Option String := none
  install_hint : Option String := none
  provide_cluster_info : Option Bool := none
  interactive_mode : Option InteractiveMode := none

/-- `User` from `kubeconfig.rs` (`impersonate_user_extra` modelled as an
association list). -/
structure User where
  client_certificate : Option String := none
  client_certificate_data : Option String := none
  client_key : Option String := none
  client_key_data : Option String := none
  token : Option String := none
  token_file : Option String := none
  impersonate : Option String := none
  impersonate_uid : Option String := none
  impersonate_groups : List String := []
  impersonate_user_extra : List (String × List String) := []
  username : Option String := none
  password : Option String := none
  auth_provider : Option AuthProvider := none
  exec : Option ExecConfig := none
  extensions : List NamedExtension := []

/-- `NamedUser` from `kubeconfig.rs`. -/
structure NamedUser where
  name : String
  user : User

/-- `Context` from `kubeconfig.rs`. -/
structure Context where
  cluster : String
  user : String
  «namespace» : Option String := none
  extensions : List NamedExtension := []

/-- `NamedContext` from `kubeconfig.rs`. -/
structure NamedContext where
  name : String
  context : Context

/-- `KubeConfig` from `kubeconfig.rs`, the root document. -/
structure KubeConfig where
  api_version : String
  kind : String
  preferences : Option Preferences := none
  clusters : List NamedCluster := []
  users : List NamedUser := []
  contexts : List NamedContext := []
  current_context : Option String := none
  extensions : List NamedExtension := []

/-- `KubeConfigError` from `kubeconfig.rs`.  The `IoError` and
`ParseError` variants carry foreign payloads (`std::io::Error`,
`serde_yaml::Error`) that never arise inside the functions embedded
here; `validate` only ever produces `ValidationError`. -/
inductive KubeConfigError where
  | ValidationError : String → KubeConfigError
deriving DecidableEq

/-- `KubeConfError` from `main.rs` (the merge error type; never actually
produced by `merge_kubeconfigs`). -/
inductive KubeConfError where
  | MergeError : String → KubeConfError
deriving DecidableEq

/-! ## Validation (`KubeConfig::validate`, `kubeconfig.rs` lines 231-311)

The error messages below follow the `format!` strings of the source; the
source wraps entity names in single quotes, which are elided here. -/

/-- Value of a character in the standard base64 alphabet
(`A-Z a-z 0-9 + /`), `none` for every other character. -/
def b64Val (c : Char) : Option Nat :=
  if 'A' ≤ c && c ≤ 'Z' then some (c.toNat - 65)
  else if 'a' ≤ c && c ≤ 'z' then some (c.toNat - 71)
  else if '0' ≤ c && c ≤ '9' then some (c.toNat + 4)
  else if c == '+' then some 62
  else if c == '/' then some 63
  else none

/-- Whether a character sequence is accepted by
`base64::engine::general_purpose::STANDARD.decode`: groups of four
symbols, canonical `=` padding only at the very end, and zero unused
trailing bits in the final group. -/
def base64Ok : List Char → Bool
  | [] => true
  | a :: b :: c :: d :: rest =>
    match b64Val a, b64Val b with
    | some _, some vb =>
      if c == '=' then
        d == '=' && rest.isEmpty && vb % 16 == 0
      else
        match b64Val c with
        | some vc =>
          if d == '=' then
            rest.isEmpty && vc % 4 == 0
          else
            match b64Val d with
            | some _ => base64Ok rest
            | none => false
        | none => false
    | _, _ => false
  | _ => false

/-- `STANDARD.decode(s).is_ok()` for a string. -/
def base64Decodable (s : String) : Bool :=
  base64Ok s.data

/-- Whether an optional inline base64 field is absent or decodable: the
source checks such fields with `if let Some(data) = ... { decode(...)? }`. -/
def optB64Ok : Option String → Bool
  | some d => base64Decodable d
  | none => true

/-- `str::starts_with`, re-implemented on character lists so that it
evaluates in the kernel. -/
def strStartsWith (s pat : String) : Bool :=
  pat.data.isPrefixOf s.data

/-- The server URL check of `validate`: the URL must begin with
`http://` or `https://`. -/
def serverUrlOk (server : String) : Bool :=
  strStartsWith server "http://" || strStartsWith server "https://"

def apiVersionErrMsg (v : String) : String :=
  "Unsupported apiVersion: " ++ v

def kindErrMsg (k : String) : String :=
  "Invalid kind: " ++ k ++ ", expected Config"

def currentContextErrMsg (cur : String) : String :=
  "Current context " ++ cur ++ " not found in contexts"

def contextClusterErrMsg (ctxName clusterName : String) : String :=
  "Context " ++ ctxName ++ " references non-existent cluster " ++ clusterName

def contextUserErrMsg (ctxName userName : String) : String :=
  "Context " ++ ctxName ++ " references non-existent user " ++ userName

def serverErrMsg (name server : String) : String :=
  "Cluster " ++ name ++ " has invalid server URL: " ++ server

def caDataErrMsg (name : String) : String :=
  "Cluster " ++ name ++ " has invalid certificate-authority-data"

def clientCertErrMsg (name : String) : String :=
  "User " ++ name ++ " has invalid client-certificate-data"

def clientKeyErrMsg (name : String) : String :=
  "User " ++ name ++ " has invalid client-key-data"

/-- The `for context in &self.contexts` loop of `validate`: each context
must reference an existing cluster and an existing user, failing fast. -/
def checkContexts (clusters : List NamedCluster) (users : List NamedUser) :
    List NamedContext → Except KubeConfigError Unit
  | [] => Except.ok ()
  | ctx :: rest =>
    if !(clusters.any fun c => c.name == ctx.context.cluster) then
      Except.error (KubeConfigError.ValidationError
        (contextClusterErrMsg ctx.name ctx.context.cluster))
    else if !(users.any fun u => u.name == ctx.context.user) then
      Except.error (KubeConfigError.ValidationError
        (contextUserErrMsg ctx.name ctx.context.user))
    else checkContexts clusters users rest

/-- The `for cluster in &self.clusters` loop of `validate`: server URL
scheme check, then base64 check of `certificate-authority-data`. -/
def checkClusters : List NamedCluster → Except KubeConfigError Unit
  | [] => Except.ok ()
  | cl :: rest =>
    if !(serverUrlOk cl.cluster.server) then
      Except.error (KubeConfigError.ValidationError
        (serverErrMsg cl.name cl.cluster.server))
    else if !(optB64Ok cl.cluster.certificate_authority_data) then
      Except.error (KubeConfigError.ValidationError (caDataErrMsg cl.name))
    else checkClusters rest

/-- The `for user in &self.users` loop of `validate`: base64 checks of
`client-certificate-data` then `client-key-data`. -/
def checkUsers : List NamedUser → Except KubeConfigError Unit
  | [] => Except.ok ()
  | u :: rest =>
    if !(optB64Ok u.user.client_certificate_data) then
      Except.error (KubeConfigError.ValidationError (clientCertErrMsg u.name))
    else if !(optB64Ok u.user.client_key_data) then
      Except.error (KubeConfigError.ValidationError (clientKeyErrMsg u.name))
    else checkUsers rest

/-- The three reference and field loops of `validate`, in source order:
per-context reference checks, then per-cluster checks, then per-user
checks, each short-circuiting on the first error (the `?` operator). -/
def validateRefsAndFields (c : KubeConfig) : Except KubeConfigError Unit :=
  match checkContexts c.clusters c.users c.contexts with
  | Except.error e => Except.error e
  | Except.ok _ =>
    match checkClusters c.clusters with
    | Except.error e => Except.error e
    | Except.ok _ => checkUsers c.users

/-- `KubeConfig::validate` from `kubeconfig.rs`: apiVersion literal,
kind literal, current-context existence, then the reference and field
loops, returning the first failure. -/
def KubeConfig.validate (c : KubeConfig) : Except KubeConfigError Unit :=
  if !(c.api_version == "v1") then
    Except.error (KubeConfigError.ValidationError (apiVersionErrMsg c.api_version))
  else if !(c.kind == "Config") then
    Except.error (KubeConfigError.ValidationError (kindErrMsg c.kind))
  else
    match c.current_context with
    | some current =>
      if !(c.contexts.any fun ctx => ctx.name == current) then
        Except.error (KubeConfigError.ValidationError (currentContextErrMsg current))
      else validateRefsAndFields c
    | none => validateRefsAndFields c

/-! ### Specification-side rendering of the validation invariants -/

/-- The cluster and user references of a context both resolve. -/
def contextRefsOkB (clusters : List NamedCluster) (users : List NamedUser)
    (ctx : NamedContext) : Bool :=
  (clusters.any fun c => c.name == ctx.context.cluster)
    && (users.any fun u => u.name == ctx.context.user)

/-- The server URL of a cluster has a valid scheme and its CA data, if
present, is base64. -/
def clusterFieldsOkB (cl : NamedCluster) : Bool :=
  serverUrlOk cl.cluster.server && optB64Ok cl.cluster.certificate_authority_data

/-- The inline certificate and key data of a user, if present, are base64. -/
def userFieldsOkB (u : NamedUser) : Bool :=
  optB64Ok u.user.client_certificate_data && optB64Ok u.user.client_key_data

/-- If `currentContext` is set, a context of that name exists. -/
def currentContextOkB (c : KubeConfig) : Bool :=
  match c.current_context with
  | some current => c.contexts.any fun ctx => ctx.name == current
  | none => true

/-- Conjunction of all the §3 invariants of the specification. -/
def kubeconfigValidB (c : KubeConfig) : Bool :=
  c.api_version == "v1" && c.kind == "Config" && currentContextOkB c
    && (c.contexts.all fun ctx => contextRefsOkB c.clusters c.users ctx)
    && c.clusters.all clusterFieldsOkB
    && c.users.all userFieldsOkB

/-- The error a violating context gives rise to (cluster reference
checked before user reference). -/
def contextRefErr (clusters : List NamedCluster) (_users : List NamedUser)
    (ctx : NamedContext) : KubeConfigError :=
  if !(clusters.any fun c => c.name == ctx.context.cluster) then
    KubeConfigError.ValidationError (contextClusterErrMsg ctx.name ctx.context.cluster)
  else
    KubeConfigError.ValidationError (contextUserErrMsg ctx.name ctx.context.user)

/-- The error a violating cluster gives rise to (server scheme checked
before CA data). -/
def clusterFieldsErr (cl : NamedCluster) : KubeConfigError :=
  if !(serverUrlOk cl.cluster.server) then
    KubeConfigError.ValidationError (serverErrMsg cl.name cl.cluster.server)
  else
    KubeConfigError.ValidationError (caDataErrMsg cl.name)

/-- The error a violating user gives rise to (certificate data checked
before key data). -/
def userFieldsErr (u : NamedUser) : KubeConfigError :=
  if !(optB64Ok u.user.client_certificate_data) then
    KubeConfigError.ValidationError (clientCertErrMsg u.name)
  else
    KubeConfigError.ValidationError (clientKeyErrMsg u.name)

/-- The reference and field portion of `firstViolationSpec`: first
violating context, else first violating cluster, else first violating
user, scanning each collection in order with `find?`. -/
def firstViolationTail (c : KubeConfig) : Except KubeConfigError Unit :=
  match c.contexts.find? (fun ctx => !(contextRefsOkB c.clusters c.users ctx)) with
  | some ctx => Except.error (contextRefErr c.clusters c.users ctx)
  | none =>
    match c.clusters.find? (fun cl => !(clusterFieldsOkB cl)) with
    | some cl => Except.error (clusterFieldsErr cl)
    | none =>
      match c.users.find? (fun u => !(userFieldsOkB u)) with
      | some u => Except.error (userFieldsErr u)
      | none => Except.ok ()

/-- Written from the words of the specification, to be compared with
`KubeConfig.validate`: run the invariants in the fixed order literal
checks, current-context existence, per-context reference checks,
per-cluster field checks, per-user field checks, and return the error
of the FIRST violated check (each group scanning its entries in order
via `find?`). -/
def firstViolationSpec (c : KubeConfig) : Except KubeConfigError Unit :=
  if !(c.api_version == "v1") then
    Except.error (KubeConfigError.ValidationError (apiVersionErrMsg c.api_version))
  else if !(c.kind == "Config") then
    Except.error (KubeConfigError.ValidationError (kindErrMsg c.kind))
  else
    match c.current_context with
    | some current =>
      if !(c.contexts.any fun ctx => ctx.name == current) then
        Except.error (KubeConfigError.ValidationError (currentContextErrMsg current))
      else firstViolationTail c
    | none => firstViolationTail c

/-! ## Merge (`merge_kubeconfigs`, `main.rs` lines 135-290) -/

/-- The per-collection merge loop of `merge_kubeconfigs`.  The same loop
appears verbatim four times in the source (clusters, users, contexts,
top-level extensions) and once more for preference extensions, differing
only in the entry type; `nm` is the `name` field accessor of the entry.
Each entry of `other` is looked up by name (`iter().position`) in the
accumulated list; misses are pushed at the end, hits are overwritten in
place when `force` is set and kept otherwise. -/
def mergeNamedEntries {α : Type} (nm : α → String) (mainEntries otherEntries : List α)
    (force : Bool) : List α :=
  otherEntries.foldl
    (fun merged o =>
      match merged.findIdx? (fun e => nm e == nm o) with
      | none => merged ++ [o]
      | some i => if force then merged.set i o else merged)
    mainEntries

/-- The preferences part of `merge_kubeconfigs` (`main.rs` lines
143-205): only acts when `include_preferences` is set and `other` has
preferences; `colors` is taken from `other` when `main` has no value or
when `force` is set, and the preference extensions follow the common
per-collection loop. -/
def mergedPreferences (mainPrefs otherPrefs : Option Preferences)
    (force include_preferences : Bool) : Option Preferences :=
  if include_preferences then
    match otherPrefs with
    | some op =>
      match mainPrefs with
      | some mp =>
        some
          { colors :=
              match mp.colors with
              | some colors => if force then op.colors else some colors
              | none => op.colors,
            extensions := mergeNamedEntries (fun e => e.name) mp.extensions op.extensions force }
      | none => some op
    | none => mainPrefs
  else mainPrefs

/-- The pure body of `merge_kubeconfigs`.  The source mutates `main`
field by field (preferences, clusters, users, contexts, extensions);
the steps touch pairwise disjoint fields, so they are gathered into one
record update.  `api_version`, `kind` and `current_context` are never
touched. -/
def merge_kubeconfigs_core (main other : KubeConfig) (force include_preferences : Bool) :
    KubeConfig :=
  { main with
    preferences := mergedPreferences main.preferences other.preferences force include_preferences,
    clusters := mergeNamedEntries (fun c => c.name) main.clusters other.clusters force,
    users := mergeNamedEntries (fun u => u.name) main.users other.users force,
    contexts := mergeNamedEntries (fun c => c.name) main.contexts other.contexts force,
    extensions := mergeNamedEntries (fun e => e.name) main.extensions other.extensions force }

/-- `merge_kubeconfigs` from `main.rs`: returns
`Result<KubeConfig, KubeConfError>` in the source and ends with
`Ok(main)`; no code path produces `Err`. -/
def merge_kubeconfigs (main other : KubeConfig) (force include_preferences : Bool) :
    Except KubeConfError KubeConfig :=
  Except.ok (merge_kubeconfigs_core main other force include_preferences)

/-- An empty document for the merge-identity property: no clusters,
users, contexts or extensions, and no preferences. -/
def emptyKubeConfig (api_version kind : String) : KubeConfig :=
  { api_version := api_version, kind := kind }

/-- Written from the words of the specification for the per-collection
merge policy, to be compared with `mergeNamedEntries`: entries already
present in `main` keep the order and value they have in `main` (the
value coming from `other` at that position when `force` is set), and
entries of `other` whose name is absent from `main` are appended,
keeping the order they have in `other`. -/
def mergeByNameSpec {α : Type} (nm : α → String) (mainEntries otherEntries : List α)
    (force : Bool) : List α :=
  (mainEntries.map fun m =>
    if force then ((otherEntries.find? fun o => nm o == nm m).getD m) else m)
    ++ otherEntries.filter fun o => !(mainEntries.any fun m => nm m == nm o)

/-! ## Rename (`rename_kubeconfig_values`, `main.rs` lines 292-534)

The source aborts the process with `panic!` on a malformed
`previous::new` token, an invalid new name, or a name conflict without
`--force`; these aborts are modelled as `Except.error` values. -/

/-- A character matched by the regex class `[a-z0-9]`. -/
def isLowerAlnum (c : Char) : Bool :=
  ('a' ≤ c && c ≤ 'z') || ('0' ≤ c && c ≤ '9')

/-- A character matched by the regex class `[a-z0-9\-\.]`. -/
def isNameInner (c : Char) : Bool :=
  isLowerAlnum c || c == '-' || c == '.'

/-- Every character but the last is in `[a-z0-9\-\.]` and the last is in
`[a-z0-9]`; false on the empty list. -/
def validNameChars : List Char → Bool
  | [] => false
  | [c] => isLowerAlnum c
  | c :: rest => isNameInner c && validNameChars rest

/-- The new-name check of `rename_kubeconfig_values`: whether the
anchored regex `([a-z0-9]{1})([a-z0-9\-\.]{0,251})([a-z0-9]{1})` accepts
the string.  The accepted strings are exactly: first character in
`[a-z0-9]`, zero to 251 middle characters in `[a-z0-9\-\.]`, last
character in `[a-z0-9]` - hence total length between 2 and 253. -/
def validNewName (s : String) : Bool :=
  match s.data with
  | [] => false
  | [_] => false
  | c :: rest => isLowerAlnum c && validNameChars rest && s.data.length ≤ 253

/-- Written from the words of the specification, to be compared with
`validNewName`: only lowercase alphanumeric characters, hyphens and
dots, starting and ending with an alphanumeric character, at most 253
characters long. -/
def dnsNameSpecOk (s : String) : Bool :=
  !s.data.isEmpty && s.data.all isNameInner
    && isLowerAlnum (s.data.headD ' ') && isLowerAlnum (s.data.getLastD ' ')
    && s.data.length ≤ 253

/-- The three abort conditions of the rename blocks. -/
inductive RenameError where
  | badSyntax : RenameError
  | badNewName : RenameError
  | conflict : RenameError
deriving DecidableEq

/-- The `if let Some(context) = context` block of
`rename_kubeconfig_values` (`main.rs` lines 311-379), after the
`previous::new` split: regex check on the new name, conflict check
against existing context names (overridden by `force`), rename of every
context entry named `previous_value`, then update of `current_context`
if it equalled `previous_value`. -/
def renameContextOp (k : KubeConfig) (previous_value new_value : String)
    (force : Bool) : Except RenameError KubeConfig :=
  if !(validNewName new_value) then
    Except.error RenameError.badNewName
  else if (k.contexts.any fun c => c.name == new_value) && !force then
    Except.error RenameError.conflict
  else if k.current_context == some previous_value then
    Except.ok
      { k with
        contexts := k.contexts.map fun c =>
          if c.name == previous_value then { c with name := new_value } else c,
        current_context := some new_value }
  else
    Except.ok
      { k with
        contexts := k.contexts.map fun c =>
          if c.name == previous_value then { c with name := new_value } else c }

/-- The `if let Some(cluster) = cluster` block of
`rename_kubeconfig_values` (`main.rs` lines 381-455): regex check,
conflict check against existing cluster names, rename of every cluster
entry named `previous_value`, then cascade into every context whose
`cluster` reference equals `previous_value`. -/
def renameClusterOp (k : KubeConfig) (previous_value new_value : String)
    (force : Bool) : Except RenameError KubeConfig :=
  if !(validNewName new_value) then
    Except.error RenameError.badNewName
  else if (k.clusters.any fun c => c.name == new_value) && !force then
    Except.error RenameError.conflict
  else
    Except.ok
      { k with
        clusters := k.clusters.map fun c =>
          if c.name == previous_value then { c with name := new_value } else c,
        contexts := k.contexts.map fun c =>
          if c.context.cluster == previous_value then
            { c with context := { c.context with cluster := new_value } }
          else c }

/-- The `if let Some(user) = user` block of `rename_kubeconfig_values`
(`main.rs` lines 457-531): regex check, conflict check against existing
user names, rename of every user entry named `previous_value`, then
cascade into every context whose `user` reference equals
`previous_value`. -/
def renameUserOp (k : KubeConfig) (previous_value new_value : String)
    (force : Bool) : Except RenameError KubeConfig :=
  if !(validNewName new_value) then
    Except.error RenameError.badNewName
  else if (k.users.any fun c => c.name == new_value) && !force then
    Except.error RenameError.conflict
  else
    Except.ok
      { k with
        users := k.users.map fun u =>
          if u.name == previous_value then { u with name := new_value } else u,
        contexts := k.contexts.map fun c =>
          if c.context.user == previous_value then
            { c with context := { c.context with user := new_value } }
          else c }

/-- Rust `str::split("::")` on the character list, re-implemented so
that it evaluates in the kernel: non-overlapping left-to-right split on
the two-character separator. -/
def splitDoubleColon : List Char → List String
  | [] => [""]
  | ':' :: ':' :: rest => "" :: splitDoubleColon rest
  | c :: rest =>
    match splitDoubleColon rest with
    | [] => [String.mk [c]]
    | s :: ss => (String.mk [c] ++ s) :: ss

/-- Split a `previous::new` rename token; anything other than exactly
two parts is the `panic!` at the top of each rename block. -/
def splitRenameToken (s : String) : Except RenameError (String × String) :=
  match splitDoubleColon s.data with
  | [prev, new] => Except.ok (prev, new)
  | _ => Except.error RenameError.badSyntax

/-- `rename_kubeconfig_values` from `main.rs`: `all` overrides the three
individual arguments, then the context, cluster and user renames run in
that order, each on the result of the previous one. -/
def rename_kubeconfig_values (k : KubeConfig)
    (context cluster user all : Option String) (force : Bool) :
    Except RenameError KubeConfig :=
  let context := match all with | some a => some a | none => context
  let cluster := match all with | some a => some a | none => cluster
  let user := match all with | some a => some a | none => user
  let afterContext : Except RenameError KubeConfig :=
    match context with
    | none => Except.ok k
    | some tok =>
      match splitRenameToken tok with
      | Except.error e => Except.error e
      | Except.ok (prev, new) => renameContextOp k prev new force
  match afterContext with
  | Except.error e => Except.error e
  | Except.ok k1 =>
    let afterCluster : Except RenameError KubeConfig :=
      match cluster with
      | none => Except.ok k1
      | some tok =>
        match splitRenameToken tok with
        | Except.error e => Except.error e
        | Except.ok (prev, new) => renameClusterOp k1 prev new force
    match afterCluster with
    | Except.error e => Except.error e
    | Except.ok k2 =>
      match user with
      | none => Except.ok k2
      | some tok =>
        match splitRenameToken tok with
        | Except.error e => Except.error e
        | Except.ok (prev, new) => renameUserOp k2 prev new force

/-! ## Delete (`delete_context`, `main.rs` lines 536-605)

The interactive confirmation prompt (lines 583-602) only decides
whether the process aborts; it does not alter the produced document and
stays outside the embedding. -/

/-- `delete_context` from `main.rs`: one pass over the contexts removes
every context named `context` while collecting the cluster and user
names those removed contexts referenced; `current_context` is cleared
if it equalled `context`; then every cluster and every user whose name
was collected is removed, unconditionally. -/
def delete_context (k : KubeConfig) (context : String) : KubeConfig :=
  let cluster_names_to_delete :=
    (k.contexts.filter fun c => c.name == context).map fun c => c.context.cluster
  let user_names_to_delete :=
    (k.contexts.filter fun c => c.name == context).map fun c => c.context.user
  let new_contexts := k.contexts.filter fun c => !(c.name == context)
  let new_current :=
    if k.current_context == some context then none else k.current_context
  let new_clusters := k.clusters.filter fun cl =>
    !(cluster_names_to_delete.any fun n => n == cl.name)
  let new_users := k.users.filter fun u =>
    !(user_names_to_delete.any fun n => n == u.name)
  { k with
    contexts := new_contexts,
    current_context := new_current,
    clusters := new_clusters,
    users := new_users }

/-- Recursive form of one iteration of the merge loop: replace the first
entry with the same name (when `force` is set), keep it (when not), or
append at the end when no entry matches. -/
def replaceOrAppend {α : Type} (nm : α → String) (force : Bool) (o : α) :
    List α → List α
  | [] => [o]
  | m :: rest =>
    if nm m == nm o then
      (if force then o :: rest else m :: rest)
    else m :: replaceOrAppend nm force o rest


/-! ## Concrete documents used as witnesses and counterexamples -/

/-- A minimal valid document: one cluster, one user, one context, the
context selected as current. -/
def docValid : KubeConfig :=
  { api_version := "v1", kind := "Config",
    clusters := [{ name := "c1", cluster := { server := "https://h" } }],
    users := [{ name := "u1", user := {} }],
    contexts := [{ name := "ctx1", context := { cluster := "c1", user := "u1" } }],
    current_context := some "ctx1" }

/-- Two contexts sharing one cluster and one user (the over-deletion
scenario of the delete claim). -/
def docSharedRefs : KubeConfig :=
  { api_version := "v1", kind := "Config",
    clusters := [{ name := "c1", cluster := { server := "https://h" } }],
    users := [{ name := "u1", user := {} }],
    contexts :=
      [{ name := "ctx1", context := { cluster := "c1", user := "u1" } },
       { name := "ctx2", context := { cluster := "c1", user := "u1" } }],
    current_context := some "ctx1" }

/-- Merge witness: main document with uniquely named entries. -/
def docMergeMain : KubeConfig :=
  { api_version := "v1", kind := "Config",
    clusters := [{ name := "c1", cluster := { server := "https://a" } }],
    users := [{ name := "u1", user := {} }],
    contexts := [{ name := "ctx1", context := { cluster := "c1", user := "u1" } }],
    current_context := some "ctx1",
    extensions := [{ name := "e1" }] }

/-- Merge witness: other document, one colliding name per collection and
one fresh name. -/
def docMergeOther : KubeConfig :=
  { api_version := "v1", kind := "Config",
    clusters :=
      [{ name := "c1", cluster := { server := "https://b" } },
       { name := "c2", cluster := { server := "https://c" } }],
    users := [{ name := "u2", user := {} }],
    contexts := [{ name := "ctx1", context := { cluster := "c2", user := "u2" } }],
    current_context := some "zzz",
    extensions := [{ name := "e2" }] }

/-- Merge counterexample: `other` carries two clusters with the same
name (names are not unique in this document). -/
def docMergeDupOther : KubeConfig :=
  { api_version := "v1", kind := "Config",
    clusters :=
      [{ name := "c1", cluster := { server := "https://a" } },
       { name := "c1", cluster := { server := "https://b" } }] }

/-- Preferences-merge witness: main sets `colors`, other has preferences
without `colors`. -/
def docPrefsMain : KubeConfig :=
  { api_version := "v1", kind := "Config",
    preferences := some { colors := some true } }

/-- Preferences-merge witness: the other document. -/
def docPrefsOther : KubeConfig :=
  { api_version := "v1", kind := "Config",
    preferences := some { } }

/-- Rename conflict witness: two contexts, two clusters, two users, so
that renaming one entry onto the name of the other conflicts. -/
def docRenamePair : KubeConfig :=
  { api_version := "v1", kind := "Config",
    clusters :=
      [{ name := "ca", cluster := { server := "https://a" } },
       { name := "cb", cluster := { server := "https://b" } }],
    users := [{ name := "ua", user := {} }, { name := "ub", user := {} }],
    contexts :=
      [{ name := "xa", context := { cluster := "ca", user := "ua" } },
       { name := "xb", context := { cluster := "cb", user := "ub" } }],
    current_context := some "xa" }

/-- Rename counterexample: a context whose name (`BAD`) does not satisfy
the new-name pattern. -/
def docRenameBadTarget : KubeConfig :=
  { api_version := "v1", kind := "Config",
    contexts :=
      [{ name := "ab", context := { cluster := "c", user := "u" } },
       { name := "BAD", context := { cluster := "c", user := "u" } }] }

/-! ## Lemmas about the per-collection merge loop -/

theorem mergeStep_eq_replaceOrAppend {α : Type} (nm : α → String) (force : Bool)
    (o : α) (l : List α) :
    (match l.findIdx? (fun e => nm e == nm o) with
     | none => l ++ [o]
     | some i => if force then l.set i o else l)
      = replaceOrAppend nm force o l := by
  induction l with
  | nil => simp [replaceOrAppend]
  | cons m rest ih =>
    rw [List.findIdx?_cons]
    by_cases h : (nm m == nm o) = true
    · simp only [h, if_true, replaceOrAppend]
      cases force <;> simp
    · rw [List.findIdx?_succ]
      simp only [replaceOrAppend, h, if_false, Bool.false_eq_true]
      cases hr : rest.findIdx? (fun e => nm e == nm o) with
      | none =>
        rw [hr] at ih
        simp [← ih]
      | some j =>
        rw [hr] at ih
        simp only [Option.map_some']
        cases force with
        | false => simpa using ih
        | true =>
          simp only [if_true] at ih ⊢
          rw [List.set_cons_succ]
          rw [ih]

theorem mergeNamedEntries_eq_foldl {α : Type} (nm : α → String) (force : Bool)
    (mainEntries otherEntries : List α) :
    mergeNamedEntries nm mainEntries otherEntries force
      = otherEntries.foldl (fun acc o => replaceOrAppend nm force o acc) mainEntries := by
  unfold mergeNamedEntries
  have hfun :
      (fun (merged : List α) o =>
        match merged.findIdx? (fun e => nm e == nm o) with
        | none => merged ++ [o]
        | some i => if force then merged.set i o else merged)
      = fun acc o => replaceOrAppend nm force o acc := by
    funext acc o
    exact mergeStep_eq_replaceOrAppend nm force o acc
  rw [hfun]

theorem replaceOrAppend_of_not_mem {α : Type} (nm : α → String) (force : Bool)
    (o : α) (l : List α) (h : ∀ m ∈ l, ¬ nm m = nm o) :
    replaceOrAppend nm force o l = l ++ [o] := by
  induction l with
  | nil => rfl
  | cons m rest ih =>
    have hm : (nm m == nm o) = false := by
      simpa using h m (List.mem_cons_self m rest)
    simp only [replaceOrAppend, hm, Bool.false_eq_true, if_false, List.cons_append]
    rw [ih (fun x hx => h x (List.mem_cons_of_mem m hx))]

theorem replaceOrAppend_keep {α : Type} (nm : α → String) (o : α) (l : List α)
    (h : (l.any fun m => nm m == nm o) = true) :
    replaceOrAppend nm false o l = l := by
  induction l with
  | nil => simp at h
  | cons m rest ih =>
    by_cases hm : (nm m == nm o) = true
    · simp [replaceOrAppend, hm]
    · have hrest : (rest.any fun m => nm m == nm o) = true := by
        simpa [List.any_cons, hm] using h
      simp [replaceOrAppend, hm, ih hrest]

theorem map_nm_replaceOrAppend {α : Type} (nm : α → String) (force : Bool) (o : α)
    (l : List α) (h : (l.any fun m => nm m == nm o) = true) :
    (replaceOrAppend nm force o l).map nm = l.map nm := by
  induction l with
  | nil => simp at h
  | cons m rest ih =>
    by_cases hm : (nm m == nm o) = true
    · have heq : nm m = nm o := by simpa using hm
      cases force <;> simp [replaceOrAppend, hm, heq]
    · have hrest : (rest.any fun m => nm m == nm o) = true := by
        simpa [List.any_cons, hm] using h
      simp [replaceOrAppend, hm, ih hrest]

theorem map_find_replaceOrAppend {α : Type} (nm : α → String) (o : α)
    (mainEntries rest : List α)
    (hnodup : (mainEntries.map nm).Nodup)
    (hfresh : nm o ∉ rest.map nm)
    (hmem : (mainEntries.any fun m => nm m == nm o) = true) :
    (replaceOrAppend nm true o mainEntries).map
        (fun m => ((rest.find? fun r => nm r == nm m).getD m))
      = mainEntries.map
        (fun m => (((o :: rest).find? fun r => nm r == nm m).getD m)) := by
  induction mainEntries with
  | nil => simp at hmem
  | cons hd tl ih =>
    rw [List.map_cons, List.nodup_cons] at hnodup
    by_cases hb : (nm hd == nm o) = true
    · have heq : nm hd = nm o := by simpa using hb
      have hfind : (rest.find? fun r => nm r == nm hd) = none := by
        rw [List.find?_eq_none]
        intro r hr
        simp only [beq_iff_eq]
        intro hcontra
        exact hfresh (heq ▸ hcontra ▸ List.mem_map_of_mem nm hr)
      simp only [replaceOrAppend, hb, if_true, List.map_cons]
      have hfindo : (rest.find? fun r => nm r == nm o) = none := heq ▸ hfind
      rw [List.find?_cons]
      have hoo : (nm o == nm hd) = true := by simp [heq]
      simp only [hoo]
      rw [hfindo]
      simp only [Option.getD_none, Option.getD_some]
      congr 1
      apply List.map_congr_left
      intro m hm
      have hmo : (nm o == nm m) = false := by
        simp only [beq_eq_false_iff_ne, ne_eq]
        intro hcontra
        exact hnodup.1 (heq ▸ hcontra ▸ List.mem_map_of_mem nm hm)
      rw [List.find?_cons]
      simp [hmo]
    · have hrest : (tl.any fun m => nm m == nm o) = true := by
        simpa [List.any_cons, hb] using hmem
      simp only [replaceOrAppend, hb, Bool.false_eq_true, if_false, List.map_cons]
      have hoh : (nm o == nm hd) = false := by
        simp only [beq_eq_false_iff_ne, ne_eq]
        intro hcontra
        simp [← hcontra] at hb
      rw [List.find?_cons]
      simp only [hoh]
      rw [ih hnodup.2 hrest]

theorem any_name_eq_any_map {α : Type} (nm : α → String) (l : List α) (s : String) :
    (l.any fun m => nm m == s) = (l.map nm).any fun t => t == s := by
  induction l with
  | nil => rfl
  | cons a t ih => simp [List.any_cons, ih]

theorem any_nm_eq_of_map_nm_eq {α : Type} (nm : α → String) (l₁ l₂ : List α)
    (h : l₁.map nm = l₂.map nm) (s : String) :
    (l₁.any fun m => nm m == s) = (l₂.any fun m => nm m == s) := by
  have e1 := any_name_eq_any_map nm l₁ s
  have e2 := any_name_eq_any_map nm l₂ s
  rw [e1, e2, h]

/-- The per-collection merge loop agrees with the description of the
merge policy in the specification whenever both collections have unique
names (the documented §3 assumption). -/
theorem mergeNamedEntries_eq_spec {α : Type} (nm : α → String) (force : Bool) :
    ∀ (otherEntries mainEntries : List α),
      (mainEntries.map nm).Nodup → (otherEntries.map nm).Nodup →
      mergeNamedEntries nm mainEntries otherEntries force
        = mergeByNameSpec nm mainEntries otherEntries force := by
  intro otherEntries
  induction otherEntries with
  | nil =>
    intro mainEntries _ _
    unfold mergeNamedEntries mergeByNameSpec
    cases force <;> simp
  | cons o rest ih =>
    intro mainEntries h1 h2
    rw [List.map_cons, List.nodup_cons] at h2
    obtain ⟨hfresh, hrestnodup⟩ := h2
    rw [mergeNamedEntries_eq_foldl, List.foldl_cons, ← mergeNamedEntries_eq_foldl]
    cases hmem : (mainEntries.any fun m => nm m == nm o) with
    | false =>
      have hforall : ∀ m ∈ mainEntries, ¬ nm m = nm o := by
        intro m hm heq
        have : (mainEntries.any fun m => nm m == nm o) = true :=
          List.any_eq_true.2 ⟨m, hm, by simp [heq]⟩
        rw [hmem] at this
        exact Bool.false_ne_true this
      rw [replaceOrAppend_of_not_mem nm force o mainEntries hforall]
      have hnodup' : ((mainEntries ++ [o]).map nm).Nodup := by
        have hmapp : (mainEntries ++ [o]).map nm = mainEntries.map nm ++ [nm o] := by
          simp
        rw [hmapp, List.nodup_append]
        refine ⟨h1, List.nodup_singleton _, ?_⟩
        intro s hs
        rw [List.mem_map] at hs
        obtain ⟨m, hm, rfl⟩ := hs
        rw [List.mem_singleton]
        intro hcontra
        exact hforall m hm hcontra
      rw [ih (mainEntries ++ [o]) hnodup' hrestnodup]
      unfold mergeByNameSpec
      have hfo :
          (if force then ((rest.find? fun r => nm r == nm o).getD o) else o) = o := by
        cases force with
        | false => rfl
        | true =>
          have : (rest.find? fun r => nm r == nm o) = none := by
            rw [List.find?_eq_none]
            intro r hr
            simp only [beq_iff_eq]
            intro hcontra
            exact hfresh (hcontra ▸ List.mem_map_of_mem nm hr)
          simp [this]
      have hmapeq :
          (mainEntries.map fun m =>
            if force then ((rest.find? fun r => nm r == nm m).getD m) else m)
          = mainEntries.map fun m =>
            if force then (((o :: rest).find? fun r => nm r == nm m).getD m) else m := by
        apply List.map_congr_left
        intro m hm
        cases force with
        | false => rfl
        | true =>
          simp only [if_true]
          rw [List.find?_cons]
          have : (nm o == nm m) = false := by
            simp only [beq_eq_false_iff_ne, ne_eq]
            intro hcontra
            exact hforall m hm hcontra.symm
          simp [this]
      have hfiltereq :
          (rest.filter fun r => !((mainEntries ++ [o]).any fun m => nm m == nm r))
          = rest.filter fun r => !(mainEntries.any fun m => nm m == nm r) := by
        apply List.filter_congr
        intro r hr
        have : (nm o == nm r) = false := by
          simp only [beq_eq_false_iff_ne, ne_eq]
          intro hcontra
          exact hfresh (hcontra ▸ List.mem_map_of_mem nm hr)
        simp [List.any_append, this]
      rw [List.map_append, List.filter_cons]
      simp only [hmem, Bool.not_false, if_true]
      rw [hfiltereq, hmapeq]
      simp [hfo, List.append_assoc]
    | true =>
      cases force with
      | false =>
        rw [replaceOrAppend_keep nm o mainEntries hmem]
        rw [ih mainEntries h1 hrestnodup]
        simp [mergeByNameSpec, List.filter_cons, hmem]
      | true =>
        have hmapnm := map_nm_replaceOrAppend nm true o mainEntries hmem
        have hnodup' : ((replaceOrAppend nm true o mainEntries).map nm).Nodup := by
          rw [hmapnm]; exact h1
        rw [ih (replaceOrAppend nm true o mainEntries) hnodup' hrestnodup]
        unfold mergeByNameSpec
        have hmap := map_find_replaceOrAppend nm o mainEntries rest h1 hfresh hmem
        have hfilter :
            (rest.filter fun r =>
              !((replaceOrAppend nm true o mainEntries).any fun m => nm m == nm r))
            = rest.filter fun r => !(mainEntries.any fun m => nm m == nm r) := by
          apply List.filter_congr
          intro r _
          rw [any_nm_eq_of_map_nm_eq nm _ _ hmapnm (nm r)]
        rw [List.filter_cons]
        simp only [hmem, Bool.not_true, Bool.false_eq_true, if_false, if_true]
        rw [hfilter]
        simp only [if_true] at hmap ⊢
        rw [hmap]

/-! ## Lemmas about the validation checks -/

theorem checkContexts_eq_find (cs : List NamedCluster) (us : List NamedUser)
    (l : List NamedContext) :
    checkContexts cs us l =
      (match l.find? (fun ctx => !(contextRefsOkB cs us ctx)) with
       | some ctx => Except.error (contextRefErr cs us ctx)
       | none => Except.ok ()) := by
  induction l with
  | nil => rfl
  | cons ctx rest ih =>
    rw [List.find?_cons]
    cases h1 : (cs.any fun c => c.name == ctx.context.cluster) with
    | false =>
      simp [checkContexts, contextRefsOkB, contextRefErr, h1]
    | true =>
      cases h2 : (us.any fun u => u.name == ctx.context.user) with
      | false =>
        simp [checkContexts, contextRefsOkB, contextRefErr, h1, h2]
      | true =>
        simp only [checkContexts, h1, h2, Bool.not_true, Bool.false_eq_true, if_false]
        rw [ih]
        simp [contextRefsOkB, h1, h2]

theorem checkClusters_eq_find (l : List NamedCluster) :
    checkClusters l =
      (match l.find? (fun cl => !(clusterFieldsOkB cl)) with
       | some cl => Except.error (clusterFieldsErr cl)
       | none => Except.ok ()) := by
  induction l with
  | nil => rfl
  | cons cl rest ih =>
    rw [List.find?_cons]
    cases h1 : serverUrlOk cl.cluster.server with
    | false =>
      simp [checkClusters, clusterFieldsOkB, clusterFieldsErr, h1]
    | true =>
      cases h2 : optB64Ok cl.cluster.certificate_authority_data with
      | false =>
        simp [checkClusters, clusterFieldsOkB, clusterFieldsErr, h1, h2]
      | true =>
        simp only [checkClusters, h1, h2, Bool.not_true, Bool.false_eq_true, if_false]
        rw [ih]
        simp [clusterFieldsOkB, h1, h2]

theorem checkUsers_eq_find (l : List NamedUser) :
    checkUsers l =
      (match l.find? (fun u => !(userFieldsOkB u)) with
       | some u => Except.error (userFieldsErr u)
       | none => Except.ok ()) := by
  induction l with
  | nil => rfl
  | cons u rest ih =>
    rw [List.find?_cons]
    cases h1 : optB64Ok u.user.client_certificate_data with
    | false =>
      simp [checkUsers, userFieldsOkB, userFieldsErr, h1]
    | true =>
      cases h2 : optB64Ok u.user.client_key_data with
      | false =>
        simp [checkUsers, userFieldsOkB, userFieldsErr, h1, h2]
      | true =>
        simp only [checkUsers, h1, h2, Bool.not_true, Bool.false_eq_true, if_false]
        rw [ih]
        simp [userFieldsOkB, h1, h2]

theorem validateRefsAndFields_eq_tail (c : KubeConfig) :
    validateRefsAndFields c = firstViolationTail c := by
  unfold validateRefsAndFields firstViolationTail
  rw [checkContexts_eq_find, checkClusters_eq_find, checkUsers_eq_find]
  cases h1 : c.contexts.find? (fun ctx => !(contextRefsOkB c.clusters c.users ctx)) with
  | some ctx => simp
  | none =>
    simp only
    cases h2 : c.clusters.find? (fun cl => !(clusterFieldsOkB cl)) with
    | some cl => simp
    | none => simp

theorem checkContexts_ok_iff (cs : List NamedCluster) (us : List NamedUser)
    (l : List NamedContext) :
    checkContexts cs us l = Except.ok ()
      ↔ (l.all fun ctx => contextRefsOkB cs us ctx) = true := by
  rw [checkContexts_eq_find]
  cases h : l.find? (fun ctx => !(contextRefsOkB cs us ctx)) with
  | none =>
    simp only [List.all_eq_true]
    rw [List.find?_eq_none] at h
    constructor
    · intro _ ctx hctx
      have := h ctx hctx
      simpa using this
    · intro _
      trivial
  | some ctx =>
    have hmem := List.mem_of_find?_eq_some h
    have hpred := List.find?_some h
    simp only [List.all_eq_true]
    constructor
    · intro hcontra
      exact absurd hcontra (by simp)
    · intro hall
      have := hall ctx hmem
      rw [this] at hpred
      simp at hpred

theorem checkClusters_ok_iff (l : List NamedCluster) :
    checkClusters l = Except.ok () ↔ (l.all clusterFieldsOkB) = true := by
  rw [checkClusters_eq_find]
  cases h : l.find? (fun cl => !(clusterFieldsOkB cl)) with
  | none =>
    simp only [List.all_eq_true]
    rw [List.find?_eq_none] at h
    constructor
    · intro _ cl hcl
      have := h cl hcl
      simpa using this
    · intro _
      trivial
  | some cl =>
    have hmem := List.mem_of_find?_eq_some h
    have hpred := List.find?_some h
    simp only [List.all_eq_true]
    constructor
    · intro hcontra
      exact absurd hcontra (by simp)
    · intro hall
      have := hall cl hmem
      rw [this] at hpred
      simp at hpred

theorem checkUsers_ok_iff (l : List NamedUser) :
    checkUsers l = Except.ok () ↔ (l.all userFieldsOkB) = true := by
  rw [checkUsers_eq_find]
  cases h : l.find? (fun u => !(userFieldsOkB u)) with
  | none =>
    simp only [List.all_eq_true]
    rw [List.find?_eq_none] at h
    constructor
    · intro _ u hu
      have := h u hu
      simpa using this
    · intro _
      trivial
  | some u =>
    have hmem := List.mem_of_find?_eq_some h
    have hpred := List.find?_some h
    simp only [List.all_eq_true]
    constructor
    · intro hcontra
      exact absurd hcontra (by simp)
    · intro hall
      have := hall u hmem
      rw [this] at hpred
      simp at hpred

theorem validateRefsAndFields_ok_iff (c : KubeConfig) :
    validateRefsAndFields c = Except.ok ()
      ↔ ((c.contexts.all fun ctx => contextRefsOkB c.clusters c.users ctx)
          && c.clusters.all clusterFieldsOkB && c.users.all userFieldsOkB) = true := by
  unfold validateRefsAndFields
  cases h1 : checkContexts c.clusters c.users c.contexts with
  | error e =>
    have hall : ¬ (c.contexts.all fun ctx => contextRefsOkB c.clusters c.users ctx) = true := by
      intro hcontra
      rw [(checkContexts_ok_iff c.clusters c.users c.contexts).2 hcontra] at h1
      cases h1
    simp [hall]
  | ok x =>
    cases x
    have hall1 := (checkContexts_ok_iff c.clusters c.users c.contexts).1 h1
    cases h2 : checkClusters c.clusters with
    | error e =>
      have hall : ¬ (c.clusters.all clusterFieldsOkB) = true := by
        intro hcontra
        rw [(checkClusters_ok_iff c.clusters).2 hcontra] at h2
        cases h2
      simp [hall]
    | ok y =>
      cases y
      have hall2 := (checkClusters_ok_iff c.clusters).1 h2
      rw [checkUsers_ok_iff]
      simp [hall1, hall2]

/-! ## Lemmas about renaming -/

/-- Renaming every entry named `prev` to `new` (with `prev ≠ new`) makes
the number of entries named `new` the sum of the old counts of `new`
and `prev`. -/
theorem length_filter_rename {α : Type} (nm : α → String) (upd : α → α)
    (prev new : String) (hne : prev ≠ new) (hupd : ∀ a, nm (upd a) = new)
    (l : List α) :
    ((l.map fun e => if nm e == prev then upd e else e).filter
        fun e => nm e == new).length
      = ((l.filter fun e => nm e == new).length
          + (l.filter fun e => nm e == prev).length) := by
  induction l with
  | nil => rfl
  | cons a t ih =>
    rw [List.map_cons]
    by_cases hb : (nm a == prev) = true
    · have hanew : (nm a == new) = false := by
        have : nm a = prev := by simpa using hb
        simp [this, hne]
      have hnew : (nm (upd a) == new) = true := by simp [hupd]
      simp only [hb, if_true, List.filter_cons, hnew, hanew, Bool.false_eq_true]
      simp only [if_true, if_false, List.length_cons]
      rw [ih]
      omega
    · simp only [hb, Bool.false_eq_true, if_false, List.filter_cons]
      by_cases hn : (nm a == new) = true
      · simp only [hn, if_true, List.length_cons]
        rw [ih]
        omega
      · simp only [hn, hb, Bool.false_eq_true, if_false]
        exact ih

/-- A member satisfying the filter makes the filtered list nonempty. -/
theorem one_le_length_filter {α : Type} (p : α → Bool) (l : List α) (x : α)
    (hx : x ∈ l) (hp : p x = true) : 1 ≤ (l.filter p).length := by
  have hmem : x ∈ l.filter p := List.mem_filter.2 ⟨hx, hp⟩
  have := List.length_pos.2 (List.ne_nil_of_mem hmem)
  omega

/-! ## Claim theorems -/

/-- C1 (amended): for documents whose collections carry unique names
per collection — the documented §3 assumption — `merge` treats clusters,
users, contexts and top-level extensions independently: entries of
`other` with fresh names are appended keeping their order in `other`,
entries whose name already occurs in `main` keep the value held in
`main` (or are replaced in place by the value from `other` when `force`
is set), and the order of `main` is preserved. -/
theorem merge_per_collection_policy (main other : KubeConfig)
    (force include_preferences : Bool)
    (hmc : (main.clusters.map fun c => c.name).Nodup)
    (hoc : (other.clusters.map fun c => c.name).Nodup)
    (hmu : (main.users.map fun u => u.name).Nodup)
    (hou : (other.users.map fun u => u.name).Nodup)
    (hmx : (main.contexts.map fun c => c.name).Nodup)
    (hox : (other.contexts.map fun c => c.name).Nodup)
    (hme : (main.extensions.map fun e => e.name).Nodup)
    (hoe : (other.extensions.map fun e => e.name).Nodup) :
    (merge_kubeconfigs_core main other force include_preferences).clusters
        = mergeByNameSpec (fun c => c.name) main.clusters other.clusters force
    ∧ (merge_kubeconfigs_core main other force include_preferences).users
        = mergeByNameSpec (fun u => u.name) main.users other.users force
    ∧ (merge_kubeconfigs_core main other force include_preferences).contexts
        = mergeByNameSpec (fun c => c.name) main.contexts other.contexts force
    ∧ (merge_kubeconfigs_core main other force include_preferences).extensions
        = mergeByNameSpec (fun e => e.name) main.extensions other.extensions force := by
  refine ⟨?_, ?_, ?_, ?_⟩
  · show mergeNamedEntries (fun c => c.name) main.clusters other.clusters force = _
    exact mergeNamedEntries_eq_spec (fun c => c.name) force other.clusters main.clusters hmc hoc
  · show mergeNamedEntries (fun u => u.name) main.users other.users force = _
    exact mergeNamedEntries_eq_spec (fun u => u.name) force other.users main.users hmu hou
  · show mergeNamedEntries (fun c => c.name) main.contexts other.contexts force = _
    exact mergeNamedEntries_eq_spec (fun c => c.name) force other.contexts main.contexts hmx hox
  · show mergeNamedEntries (fun e => e.name) main.extensions other.extensions force = _
    exact mergeNamedEntries_eq_spec (fun e => e.name) force other.extensions main.extensions hme hoe

/-- Witness for C1: the policy evaluated on concrete documents with one
colliding and one fresh name per collection. -/
theorem merge_per_collection_policy_witness :
    (merge_kubeconfigs_core docMergeMain docMergeOther true true).clusters
        = mergeByNameSpec (fun c => c.name) docMergeMain.clusters docMergeOther.clusters true
    ∧ (merge_kubeconfigs_core docMergeMain docMergeOther true true).users
        = mergeByNameSpec (fun u => u.name) docMergeMain.users docMergeOther.users true
    ∧ (merge_kubeconfigs_core docMergeMain docMergeOther true true).contexts
        = mergeByNameSpec (fun c => c.name) docMergeMain.contexts docMergeOther.contexts true
    ∧ (merge_kubeconfigs_core docMergeMain docMergeOther true true).extensions
        = mergeByNameSpec (fun e => e.name) docMergeMain.extensions docMergeOther.extensions true :=
  merge_per_collection_policy docMergeMain docMergeOther true true
    (by decide) (by decide) (by decide) (by decide)
    (by decide) (by decide) (by decide) (by decide)

/-- Counterexample for C1 as frozen: when `other` carries two clusters
with the same name (nothing rules that out for arbitrary documents),
the merge result differs from the claimed description — only the first
duplicate is appended, not each entry. -/
theorem merge_per_collection_policy_cex :
    (merge_kubeconfigs_core (emptyKubeConfig "v1" "Config") docMergeDupOther
        false false).clusters
      ≠ mergeByNameSpec (fun c => c.name) (emptyKubeConfig "v1" "Config").clusters
          docMergeDupOther.clusters false := by
  intro h
  have hlen := congrArg List.length h
  rw [show ((merge_kubeconfigs_core (emptyKubeConfig "v1" "Config") docMergeDupOther
      false false).clusters).length = 1 from rfl] at hlen
  rw [show (mergeByNameSpec (fun c => c.name) (emptyKubeConfig "v1" "Config").clusters
      docMergeDupOther.clusters false).length = 2 from rfl] at hlen
  exact absurd hlen (by decide)

/-- C7: merging any document with an empty document (no clusters, users,
contexts, extensions, no preferences) returns the document unchanged,
for both values of `force` and `includePreferences`. -/
theorem merge_empty_identity (D : KubeConfig) (force include_preferences : Bool)
    (av kd : String) :
    merge_kubeconfigs D (emptyKubeConfig av kd) force include_preferences
      = Except.ok D := by
  cases include_preferences <;> rfl

/-- C8: the merged document keeps the `currentContext` of `main`
untouched (for all flags), and with `includePreferences` unset it keeps
the `preferences` of `main` untouched. -/
theorem merge_keeps_current_context_and_preferences (main other : KubeConfig)
    (force include_preferences : Bool) :
    (merge_kubeconfigs_core main other force include_preferences).current_context
        = main.current_context
    ∧ (merge_kubeconfigs_core main other force false).preferences
        = main.preferences :=
  ⟨rfl, rfl⟩

/-- C9: `merge_kubeconfigs` always returns `Ok`; no code path produces
an error of its own. -/
theorem merge_always_ok (main other : KubeConfig) (force include_preferences : Bool) :
    ∃ R, merge_kubeconfigs main other force include_preferences = Except.ok R :=
  ⟨merge_kubeconfigs_core main other force include_preferences, rfl⟩

/-- C10: with `force` and `includePreferences` both set, when `main` has
a `colors` value and `other` has preferences without one, the merged
preferences take the absent value from `other` — the existing `colors`
setting is erased. -/
theorem force_merge_takes_absent_colors (main other : KubeConfig)
    (mp op : Preferences) (b : Bool)
    (h1 : main.preferences = some mp) (h2 : mp.colors = some b)
    (h3 : other.preferences = some op) (h4 : op.colors = none) :
    ∃ q, (merge_kubeconfigs_core main other true true).preferences = some q
      ∧ q.colors = none := by
  have hpref : (merge_kubeconfigs_core main other true true).preferences
      = some { colors := op.colors,
               extensions := mergeNamedEntries (fun e => e.name)
                 mp.extensions op.extensions true } := by
    simp [merge_kubeconfigs_core, mergedPreferences, h1, h3, h2]
  exact ⟨_, hpref, h4⟩

/-- Witness for C10 on concrete documents. -/
theorem force_merge_takes_absent_colors_witness :
    ∃ q, (merge_kubeconfigs_core docPrefsMain docPrefsOther true true).preferences
      = some q ∧ q.colors = none :=
  force_merge_takes_absent_colors docPrefsMain docPrefsOther
    { colors := some true } { } true rfl rfl rfl rfl

/-- C2: `validate` succeeds exactly when every §3 invariant holds
(apiVersion literal, kind literal, current-context existence, context
references, server URL schemes, base64 fields), and on a violating
document it returns the error of the first violated check in the fixed
order literal checks, current-context existence, per-context reference
checks, per-cluster field checks, per-user field checks — fail-fast,
with no error accumulation. -/
theorem validate_characterization (c : KubeConfig) :
    (KubeConfig.validate c = Except.ok () ↔ kubeconfigValidB c = true)
    ∧ KubeConfig.validate c = firstViolationSpec c := by
  constructor
  · unfold KubeConfig.validate kubeconfigValidB
    cases hapi : (c.api_version == "v1") with
    | false => simp [hapi]
    | true =>
      cases hkind : (c.kind == "Config") with
      | false => simp [hapi, hkind]
      | true =>
        cases hcur : c.current_context with
        | none =>
          simp only [hapi, hkind, Bool.not_true, Bool.false_eq_true, if_false]
          rw [validateRefsAndFields_ok_iff]
          simp [currentContextOkB, hcur]
        | some current =>
          cases hany : (c.contexts.any fun ctx => ctx.name == current) with
          | false =>
            simp [hapi, hkind, currentContextOkB, hcur, hany]
          | true =>
            simp only [hapi, hkind, Bool.not_true, Bool.false_eq_true, if_false,
              hany, hcur]
            rw [validateRefsAndFields_ok_iff]
            simp [currentContextOkB, hcur, hany]
  · unfold KubeConfig.validate firstViolationSpec
    simp only [validateRefsAndFields_eq_tail]

/-- Witness for C2: `validate` accepts the minimal valid document. -/
theorem validate_characterization_witness :
    KubeConfig.validate docValid = Except.ok () :=
  (validate_characterization docValid).1.mpr (by decide)

/-- C3: `delete` removes every context of the given name, clears
`currentContext` when it named the deleted context (and only then), and
removes every cluster and user whose name was referenced by a deleted
context — unconditionally, regardless of whether other remaining
contexts still reference them; clusters and users not so referenced are
kept. -/
theorem delete_context_spec (k : KubeConfig) (context : String) :
    ((delete_context k context).contexts
        = k.contexts.filter fun c => !(c.name == context))
    ∧ (k.current_context = some context →
        (delete_context k context).current_context = none)
    ∧ (k.current_context ≠ some context →
        (delete_context k context).current_context = k.current_context)
    ∧ (∀ cl ∈ k.clusters,
        ((∃ c ∈ k.contexts, c.name = context ∧ c.context.cluster = cl.name) →
          cl ∉ (delete_context k context).clusters)
        ∧ ((∀ c ∈ k.contexts, c.name = context → c.context.cluster ≠ cl.name) →
          cl ∈ (delete_context k context).clusters))
    ∧ (∀ u ∈ k.users,
        ((∃ c ∈ k.contexts, c.name = context ∧ c.context.user = u.name) →
          u ∉ (delete_context k context).users)
        ∧ ((∀ c ∈ k.contexts, c.name = context → c.context.user ≠ u.name) →
          u ∈ (delete_context k context).users)) := by
  have hclusters : (delete_context k context).clusters
      = k.clusters.filter fun cl =>
          !(((k.contexts.filter fun c => c.name == context).map
              fun c => c.context.cluster).any fun n => n == cl.name) := rfl
  have husers : (delete_context k context).users
      = k.users.filter fun u =>
          !(((k.contexts.filter fun c => c.name == context).map
              fun c => c.context.user).any fun n => n == u.name) := rfl
  refine ⟨rfl, ?_, ?_, ?_, ?_⟩
  · intro h
    show (if k.current_context == some context then none else k.current_context) = none
    simp [h]
  · intro h
    show (if k.current_context == some context then none else k.current_context)
      = k.current_context
    rw [if_neg]
    simpa using h
  · intro cl hcl
    constructor
    · rintro ⟨c, hc, hname, hclref⟩ hmem
      rw [hclusters] at hmem
      obtain ⟨-, hpred⟩ := List.mem_filter.1 hmem
      have hin : cl.name ∈ (k.contexts.filter fun c => c.name == context).map
          fun c => c.context.cluster :=
        List.mem_map.2 ⟨c, List.mem_filter.2 ⟨hc, by simp [hname]⟩, hclref⟩
      have : ((k.contexts.filter fun c => c.name == context).map
          fun c => c.context.cluster).any (fun n => n == cl.name) = true :=
        List.any_eq_true.2 ⟨cl.name, hin, by simp⟩
      rw [this] at hpred
      simp at hpred
    · intro hnone
      rw [hclusters]
      refine List.mem_filter.2 ⟨hcl, ?_⟩
      simp only [Bool.not_eq_true']
      rw [List.any_eq_false]
      intro n hn
      rw [List.mem_map] at hn
      obtain ⟨c, hcf, rfl⟩ := hn
      obtain ⟨hcmem, hcname⟩ := List.mem_filter.1 hcf
      have hne := hnone c hcmem (by simpa using hcname)
      simpa using hne
  · intro u hu
    constructor
    · rintro ⟨c, hc, hname, huref⟩ hmem
      rw [husers] at hmem
      obtain ⟨-, hpred⟩ := List.mem_filter.1 hmem
      have hin : u.name ∈ (k.contexts.filter fun c => c.name == context).map
          fun c => c.context.user :=
        List.mem_map.2 ⟨c, List.mem_filter.2 ⟨hc, by simp [hname]⟩, huref⟩
      have : ((k.contexts.filter fun c => c.name == context).map
          fun c => c.context.user).any (fun n => n == u.name) = true :=
        List.any_eq_true.2 ⟨u.name, hin, by simp⟩
      rw [this] at hpred
      simp at hpred
    · intro hnone
      rw [husers]
      refine List.mem_filter.2 ⟨hu, ?_⟩
      simp only [Bool.not_eq_true']
      rw [List.any_eq_false]
      intro n hn
      rw [List.mem_map] at hn
      obtain ⟨c, hcf, rfl⟩ := hn
      obtain ⟨hcmem, hcname⟩ := List.mem_filter.1 hcf
      have hne := hnone c hcmem (by simpa using hcname)
      simpa using hne

/-- Witness for C3 on the shared-reference document: deleting `ctx1`
clears `currentContext` and removes cluster `c1` even though the
remaining context `ctx2` still references it (dangling reference). -/
theorem delete_context_spec_witness :
    (delete_context docSharedRefs "ctx1").current_context = none
    ∧ ({ name := "c1", cluster := { server := "https://h" } } : NamedCluster)
        ∉ (delete_context docSharedRefs "ctx1").clusters
    ∧ ∃ c ∈ (delete_context docSharedRefs "ctx1").contexts,
        c.context.cluster = "c1" := by
  refine ⟨(delete_context_spec docSharedRefs "ctx1").2.1 rfl, ?_, ?_⟩
  · refine ((delete_context_spec docSharedRefs "ctx1").2.2.2.1
      { name := "c1", cluster := { server := "https://h" } } ?_).1 ?_
    · exact List.mem_singleton.2 rfl
    · exact ⟨{ name := "ctx1", context := { cluster := "c1", user := "u1" } },
        List.mem_cons_self _ _, rfl, rfl⟩
  · exact ⟨{ name := "ctx2", context := { cluster := "c1", user := "u1" } },
      List.mem_singleton.2 rfl, rfl⟩

/-- C5: renaming a cluster (force off, fresh valid new name) renames
every cluster entry named `old` to `new` and rewrites the cluster
reference of EVERY context equal to the previous name — the exact map
equations over both collections, so in particular the current context —
and leaves `currentContext` untouched; the clusters collection then
contains the new name and no longer the old one; renaming a user
updates the user reference of every context and nothing else outside
the users collection; renaming a context leaves the clusters and users
collections untouched and updates `currentContext` exactly when it
equalled the previous name. -/
theorem rename_cascades :
    (∀ (k : KubeConfig) (ctxName old new : String),
      k.current_context = some ctxName →
      (∃ c ∈ k.contexts, c.name = ctxName ∧ c.context.cluster = old) →
      (∃ cl ∈ k.clusters, cl.name = old) →
      (∀ cl ∈ k.clusters, cl.name ≠ new) →
      validNewName new = true →
      ∃ R, renameClusterOp k old new false = Except.ok R
        ∧ R.clusters = (k.clusters.map fun c =>
            if c.name == old then { c with name := new } else c)
        ∧ R.contexts = (k.contexts.map fun c =>
            if c.context.cluster == old then
              { c with context := { c.context with cluster := new } }
            else c)
        ∧ (∃ cl ∈ R.clusters, cl.name = new)
        ∧ (∀ cl ∈ R.clusters, cl.name ≠ old)
        ∧ (∀ c ∈ R.contexts, c.context.cluster ≠ old)
        ∧ (∃ c ∈ R.contexts, c.name = ctxName ∧ c.context.cluster = new)
        ∧ R.current_context = some ctxName)
    ∧ (∀ (k : KubeConfig) (old new : String) (force : Bool) (R : KubeConfig),
        renameUserOp k old new force = Except.ok R →
        R.contexts = (k.contexts.map fun c =>
          if c.context.user == old then
            { c with context := { c.context with user := new } }
          else c)
        ∧ R.current_context = k.current_context
        ∧ R.clusters = k.clusters)
    ∧ (∀ (k : KubeConfig) (old new : String) (force : Bool) (R : KubeConfig),
        renameContextOp k old new force = Except.ok R →
        R.clusters = k.clusters ∧ R.users = k.users
        ∧ (k.current_context = some old → R.current_context = some new)
        ∧ (k.current_context ≠ some old → R.current_context = k.current_context)) := by
  refine ⟨?_, ?_, ?_⟩
  · intro k ctxName old new hcur hctx hcl hnewfresh hval
    have hne : old ≠ new := by
      obtain ⟨cl0, hcl0, hn0⟩ := hcl
      intro h
      exact hnewfresh cl0 hcl0 (hn0.trans h)
    have hany : (k.clusters.any fun c => c.name == new) = false := by
      rw [List.any_eq_false]
      intro cl hclmem
      simp [hnewfresh cl hclmem]
    unfold renameClusterOp
    simp only [hval, Bool.not_true, Bool.false_eq_true, if_false, hany,
      Bool.false_and]
    refine ⟨_, rfl, rfl, rfl, ?_, ?_, ?_, ?_, hcur⟩
    · obtain ⟨cl0, hcl0, hn0⟩ := hcl
      refine ⟨{ cl0 with name := new }, ?_, rfl⟩
      have heq : { cl0 with name := new }
          = (fun c => if c.name == old then { c with name := new } else c) cl0 := by
        simp [hn0]
      rw [heq]
      exact List.mem_map_of_mem _ hcl0
    · intro cl' hmem
      have hmem' : cl' ∈ k.clusters.map
          (fun c => if c.name == old then { c with name := new } else c) := hmem
      rw [List.mem_map] at hmem'
      obtain ⟨a, ha, rfl⟩ := hmem'
      by_cases hb : (a.name == old) = true
      · simp only [hb, if_true]
        exact fun hcontra => hne (hcontra.symm)
      · simp only [hb, Bool.false_eq_true, if_false]
        simpa using hb
    · intro c' hmem
      have hmem' : c' ∈ k.contexts.map
          (fun c => if c.context.cluster == old then
            { c with context := { c.context with cluster := new } } else c) := hmem
      rw [List.mem_map] at hmem'
      obtain ⟨a, ha, rfl⟩ := hmem'
      by_cases hb : (a.context.cluster == old) = true
      · simp only [hb, if_true]
        exact fun hcontra => hne (hcontra.symm)
      · simp only [hb, Bool.false_eq_true, if_false]
        simpa using hb
    · obtain ⟨c0, hc0, hc0name, hc0clu⟩ := hctx
      refine ⟨{ c0 with context := { c0.context with cluster := new } }, ?_, hc0name, rfl⟩
      have heq : { c0 with context := { c0.context with cluster := new } }
          = (fun c => if c.context.cluster == old then
              { c with context := { c.context with cluster := new } } else c) c0 := by
        simp [hc0clu]
      rw [heq]
      exact List.mem_map_of_mem _ hc0
  · intro k old new force R h
    by_cases hv : validNewName new = true
    · cases hcond : ((k.users.any fun c => c.name == new) && !force) with
      | true =>
        simp [renameUserOp, hv, hcond] at h
      | false =>
        simp only [renameUserOp, hv, Bool.not_true, Bool.false_eq_true, if_false,
          hcond] at h
        injection h with h
        subst h
        exact ⟨rfl, rfl, rfl⟩
    · simp [renameUserOp, hv] at h
  · intro k old new force R h
    by_cases hv : validNewName new = true
    · cases hcond : ((k.contexts.any fun c => c.name == new) && !force) with
      | true =>
        simp [renameContextOp, hv, hcond] at h
      | false =>
        cases hcur : (k.current_context == some old) with
        | true =>
          simp only [renameContextOp, hv, Bool.not_true, Bool.false_eq_true,
            if_false, hcond, hcur, if_true] at h
          injection h with h
          subst h
          refine ⟨rfl, rfl, fun _ => rfl, fun hne => ?_⟩
          exact absurd (by simpa using hcur) hne
        | false =>
          simp only [renameContextOp, hv, Bool.not_true, Bool.false_eq_true,
            if_false, hcond, hcur] at h
          injection h with h
          subst h
          refine ⟨rfl, rfl, fun heq => ?_, fun _ => rfl⟩
          rw [heq] at hcur
          simp at hcur
    · simp [renameContextOp, hv] at h

/-- Witness for C5: the cluster-rename cascade on a concrete document,
plus the user- and context-rename frame facts at concrete inputs. -/
theorem rename_cascades_witness :
    (∃ R, renameClusterOp docValid "c1" "c9" false = Except.ok R
      ∧ R.clusters = (docValid.clusters.map fun c =>
          if c.name == "c1" then { c with name := "c9" } else c)
      ∧ R.contexts = (docValid.contexts.map fun c =>
          if c.context.cluster == "c1" then
            { c with context := { c.context with cluster := "c9" } }
          else c)
      ∧ (∃ cl ∈ R.clusters, cl.name = "c9")
      ∧ (∀ cl ∈ R.clusters, cl.name ≠ "c1")
      ∧ (∀ c ∈ R.contexts, c.context.cluster ≠ "c1")
      ∧ (∃ c ∈ R.contexts, c.name = "ctx1" ∧ c.context.cluster = "c9")
      ∧ R.current_context = some "ctx1") :=
  rename_cascades.1 docValid "ctx1" "c1" "c9" rfl (by decide) (by decide)
    (by decide) (by decide)

/-- C6 (amended): for each kind, when the (format-valid) new name
already names an existing entry of that kind, some entry carries the
previous name, and the two names differ: without `force` the rename is
refused with the conflict error (no document is produced), and with
`force` it succeeds and yields a document with at least two entries of
that kind named `newName`. -/
theorem rename_conflict_policy :
    (∀ (k : KubeConfig) (prev new : String),
      validNewName new = true →
      (∃ c ∈ k.contexts, c.name = new) →
      (∃ c ∈ k.contexts, c.name = prev) →
      prev ≠ new →
      renameContextOp k prev new false = Except.error RenameError.conflict
      ∧ ∃ R, renameContextOp k prev new true = Except.ok R
          ∧ 2 ≤ (R.contexts.filter fun c => c.name == new).length)
    ∧ (∀ (k : KubeConfig) (prev new : String),
      validNewName new = true →
      (∃ c ∈ k.clusters, c.name = new) →
      (∃ c ∈ k.clusters, c.name = prev) →
      prev ≠ new →
      renameClusterOp k prev new false = Except.error RenameError.conflict
      ∧ ∃ R, renameClusterOp k prev new true = Except.ok R
          ∧ 2 ≤ (R.clusters.filter fun c => c.name == new).length)
    ∧ (∀ (k : KubeConfig) (prev new : String),
      validNewName new = true →
      (∃ u ∈ k.users, u.name = new) →
      (∃ u ∈ k.users, u.name = prev) →
      prev ≠ new →
      renameUserOp k prev new false = Except.error RenameError.conflict
      ∧ ∃ R, renameUserOp k prev new true = Except.ok R
          ∧ 2 ≤ (R.users.filter fun u => u.name == new).length) := by
  refine ⟨?_, ?_, ?_⟩
  · intro k prev new hval hnew hprev hne
    obtain ⟨cn, hcn, hcnname⟩ := hnew
    obtain ⟨cp, hcp, hcpname⟩ := hprev
    have hany : (k.contexts.any fun c => c.name == new) = true :=
      List.any_eq_true.2 ⟨cn, hcn, by simp [hcnname]⟩
    constructor
    · simp [renameContextOp, hval, hany]
    · unfold renameContextOp
      simp only [hval, Bool.not_true, Bool.false_eq_true, if_false, hany,
        Bool.and_false, Bool.true_and]
      cases hcur : (k.current_context == some prev) with
      | true =>
        simp only [hcur, if_true]
        refine ⟨_, rfl, ?_⟩
        rw [length_filter_rename (fun c : NamedContext => c.name)
          (fun c => { c with name := new }) prev new hne (fun a => rfl) k.contexts]
        have h1 := one_le_length_filter (fun c : NamedContext => c.name == new)
          k.contexts cn hcn (by simp [hcnname])
        have h2 := one_le_length_filter (fun c : NamedContext => c.name == prev)
          k.contexts cp hcp (by simp [hcpname])
        omega
      | false =>
        simp only [hcur, Bool.false_eq_true, if_false]
        refine ⟨_, rfl, ?_⟩
        rw [length_filter_rename (fun c : NamedContext => c.name)
          (fun c => { c with name := new }) prev new hne (fun a => rfl) k.contexts]
        have h1 := one_le_length_filter (fun c : NamedContext => c.name == new)
          k.contexts cn hcn (by simp [hcnname])
        have h2 := one_le_length_filter (fun c : NamedContext => c.name == prev)
          k.contexts cp hcp (by simp [hcpname])
        omega
  · intro k prev new hval hnew hprev hne
    obtain ⟨cn, hcn, hcnname⟩ := hnew
    obtain ⟨cp, hcp, hcpname⟩ := hprev
    have hany : (k.clusters.any fun c => c.name == new) = true :=
      List.any_eq_true.2 ⟨cn, hcn, by simp [hcnname]⟩
    constructor
    · simp [renameClusterOp, hval, hany]
    · unfold renameClusterOp
      simp only [hval, Bool.not_true, Bool.false_eq_true, if_false, hany,
        Bool.and_false, Bool.true_and]
      refine ⟨_, rfl, ?_⟩
      rw [length_filter_rename (fun c : NamedCluster => c.name)
        (fun c => { c with name := new }) prev new hne (fun a => rfl) k.clusters]
      have h1 := one_le_length_filter (fun c : NamedCluster => c.name == new)
        k.clusters cn hcn (by simp [hcnname])
      have h2 := one_le_length_filter (fun c : NamedCluster => c.name == prev)
        k.clusters cp hcp (by simp [hcpname])
      omega
  · intro k prev new hval hnew hprev hne
    obtain ⟨cn, hcn, hcnname⟩ := hnew
    obtain ⟨cp, hcp, hcpname⟩ := hprev
    have hany : (k.users.any fun c => c.name == new) = true :=
      List.any_eq_true.2 ⟨cn, hcn, by simp [hcnname]⟩
    constructor
    · simp [renameUserOp, hval, hany]
    · unfold renameUserOp
      simp only [hval, Bool.not_true, Bool.false_eq_true, if_false, hany,
        Bool.and_false, Bool.true_and]
      refine ⟨_, rfl, ?_⟩
      rw [length_filter_rename (fun u : NamedUser => u.name)
        (fun u => { u with name := new }) prev new hne (fun a => rfl) k.users]
      have h1 := one_le_length_filter (fun u : NamedUser => u.name == new)
        k.users cn hcn (by simp [hcnname])
      have h2 := one_le_length_filter (fun u : NamedUser => u.name == prev)
        k.users cp hcp (by simp [hcpname])
      omega

/-- Witness for C6 on a concrete document: renaming context `xa` onto
the existing name `xb` is refused without force and duplicates `xb`
with force. -/
theorem rename_conflict_policy_witness :
    renameContextOp docRenamePair "xa" "xb" false = Except.error RenameError.conflict
    ∧ ∃ R, renameContextOp docRenamePair "xa" "xb" true = Except.ok R
        ∧ 2 ≤ (R.contexts.filter fun c => c.name == "xb").length :=
  rename_conflict_policy.1 docRenamePair "xa" "xb" (by decide) (by decide)
    (by decide) (by decide)

/-- Counterexample for C6 as frozen: `BAD` names an existing context of
the document, yet the forced rename onto it does not proceed — the
new-name format check fires first and aborts, because existing entries
may carry names that the rename pattern rejects. -/
theorem rename_conflict_policy_cex :
    (∃ c ∈ docRenameBadTarget.contexts, c.name = "BAD")
    ∧ renameContextOp docRenameBadTarget "ab" "BAD" true
        = Except.error RenameError.badNewName :=
  ⟨by decide, rfl⟩

/-- The tail check of the new-name pattern in terms of whole-list
predicates: all characters in the name class and the last one
alphanumeric. -/
theorem validNameChars_eq_all_and_last (l : List Char) :
    validNameChars l = (l.all isNameInner && isLowerAlnum (l.getLastD ' ')) := by
  induction l with
  | nil => decide
  | cons c rest ih =>
    cases rest with
    | nil =>
      cases h : isLowerAlnum c <;>
        simp [validNameChars, isNameInner, h]
    | cons d tail =>
      have hstep : validNameChars (c :: d :: tail)
          = (isNameInner c && validNameChars (d :: tail)) := rfl
      rw [hstep, ih]
      simp [List.all_cons, List.getLastD_cons, Bool.and_assoc]

/-- The new-name check of the code agrees with the DNS-subdomain
description of the specification exactly on names of length two or
more: the
regex `([a-z0-9]{1})([a-z0-9\-\.]{0,251})([a-z0-9]{1})` additionally
rejects every single-character name. -/
theorem validNewName_characterization (s : String) :
    validNewName s = (dnsNameSpecOk s && decide (2 ≤ s.data.length)) := by
  unfold validNewName dnsNameSpecOk
  cases hdata : s.data with
  | nil => simp
  | cons c rest =>
    cases rest with
    | nil => simp
    | cons d tail =>
      show (isLowerAlnum c && validNameChars (d :: tail)
          && decide ((c :: d :: tail).length ≤ 253)) = _
      rw [validNameChars_eq_all_and_last]
      have hlen : 2 ≤ (c :: d :: tail).length := by
        simp [List.length_cons]
      rw [decide_eq_true hlen]
      cases h1 : isLowerAlnum c with
      | false => simp [List.headD, h1]
      | true =>
        have hinner : isNameInner c = true := by simp [isNameInner, h1]
        cases h2 : (d :: tail).all isNameInner <;>
          cases h3 : isLowerAlnum ((d :: tail).getLastD ' ') <;>
            simp [List.all_cons, List.getLastD_cons, List.headD, h1, hinner,
              h2, h3] <;>
          simp [List.getLastD_cons] at h3 <;> simp [h3]

/-- C4 (divergence evidence): the one-character name `a` satisfies the
claimed DNS-subdomain rule (lowercase alphanumeric, starts and ends
alphanumeric, at most 253 characters) but the regex of the code rejects
it, so the rename aborts with the invalid-name error. -/
theorem newname_check_single_char_divergence :
    dnsNameSpecOk "a" = true
    ∧ validNewName "a" = false
    ∧ renameContextOp (emptyKubeConfig "v1" "Config") "x" "a" false
        = Except.error RenameError.badNewName :=
  ⟨by decide, by decide, rfl⟩

end Kubeconf
